import Mathlib

/-!
Shallow embedding of `SPPmigrate.py`, a directory-tree migration script:
it walks a source tree, plans (source-dir, target-dir) pairs, copies files
with the external `ditto` primitive, verifies MD5 checksums, and reports
aggregate counts.  Paths are modelled as lists of components (all paths the
script manipulates are made absolute with `os.path.abspath`, so we work with
absolute component lists and `abspath` is the identity).  Filesystem effects
are recorded as an explicit event trace; exceptions that Python would let
propagate are modelled with `Except`.
-/

/-- A filesystem path, as its list of components (absolute, root-relative). -/
abbrev FsPath := List String

/-- Rendering of a path for log lines, mirroring a POSIX absolute path. -/
def pathStr (p : FsPath) : String :=
  "/" ++ String.intercalate "/" p

/-- Length of the common leading run of two component lists (what
`os.path.relpath` computes before deciding how many `..` entries it needs). -/
def commonLen : List String → List String → Nat
  | a :: as, b :: bs => if a = b then commonLen as bs + 1 else 0
  | _, _ => 0

/-- `os.path.relpath path start` on component lists: drop the common run,
then one `..` per remaining component of `start`, then the rest of `path`.
Python returns the one-component path `.` when the result is empty; since
`dir/.` denotes `dir`, the empty component list represents it here. -/
def relpath (path start : FsPath) : FsPath :=
  List.replicate (start.length - commonLen path start) ".." ++ path.drop (commonLen path start)

/-- Kind of a directory entry as seen by `os.listdir` plus the `stat`-based
tests.  Python's `os.path.isfile` follows symbolic links, so a symlink whose
target is a regular file satisfies it. -/
inductive EntryKind where
  | regular
  | symlinkToRegular
  | special
  | directory
deriving DecidableEq, Repr

/-- `os.path.isfile` on an entry of the given kind: true for regular files
and for symbolic links that resolve to regular files. -/
def isfile : EntryKind → Bool
  | .regular => true
  | .symlinkToRegular => true
  | .special => false
  | .directory => false

mutual
/-- A source directory tree: the non-directory entries (with their kinds)
and the named subdirectories. -/
inductive SrcTree where
  | node (files : List (String × EntryKind)) (dirs : DirList)
/-- The subdirectories of a node: a list of (name, subtree) pairs. -/
inductive DirList where
  | nil
  | cons (name : String) (tree : SrcTree) (rest : DirList)
end

mutual
/-- Number of directories in a tree, the root included. -/
def dirCount : SrcTree → Nat
  | .node _ ds => 1 + dirCountList ds
/-- Sum of `dirCount` over a subdirectory list. -/
def dirCountList : DirList → Nat
  | .nil => 0
  | .cons _ t rest => dirCount t + dirCountList rest
end

mutual
/-- `os.walk` restricted to what `do_copy` uses: the absolute path of every
directory (top-down, root first) paired with the number of non-directory
entries directly inside it (`len(directory[2])`). -/
def walkDirs (p : FsPath) : SrcTree → List (FsPath × Nat)
  | .node fs ds => (p, fs.length) :: walkDirsList p ds
/-- The recursive part of `walkDirs` over a subdirectory list. -/
def walkDirsList (p : FsPath) : DirList → List (FsPath × Nat)
  | .nil => []
  | .cons n t rest => walkDirs (p ++ [n]) t ++ walkDirsList p rest
end

/-- Look a name up in a subdirectory list. -/
def dirLookup : DirList → String → Option SrcTree
  | .nil, _ => none
  | .cons n t rest, m => if n = m then some t else dirLookup rest m

/-- Resolve a relative component path inside a tree. -/
def subtreeAt : List String → SrcTree → Option SrcTree
  | [], t => some t
  | n :: rest, .node _ ds =>
    match dirLookup ds n with
    | some t => subtreeAt rest t
    | none => none

/-- Names of the subdirectories of a node, tagged as directory entries. -/
def dirEntries : DirList → List (String × EntryKind)
  | .nil => []
  | .cons n _ rest => (n, EntryKind.directory) :: dirEntries rest

/-- The entries `os.listdir` reports for a node, with their kinds:
the non-directory entries followed by the subdirectory entries. -/
def entriesOf : SrcTree → List (String × EntryKind)
  | .node fs ds => fs ++ dirEntries ds

/-- If `root` is a leading run of `p`, the remaining components. -/
def stripRoot : FsPath → FsPath → Option FsPath
  | [], p => some p
  | _ :: _, [] => none
  | r :: rs, x :: xs => if r = x then stripRoot rs xs else none

/-- Exceptions the script can let propagate (Python terminates the process
on any of them: nothing in `SPPmigrate.py` catches these). -/
inductive Err where
  | ioError
  | osError
  | eofError
  | indexError
deriving DecidableEq, Repr

/-- One observable effect of a run: an invocation of the external copy
primitive, a checksum read, a directory creation, or a printed line. -/
inductive Event where
  | copy (source target : FsPath)
  | checksum (p : FsPath)
  | mkdir (p : FsPath)
  | print (line : String)
deriving DecidableEq, Repr

/-- Whether an event writes to the filesystem (a file copy or a directory
creation). -/
def isWrite : Event → Bool
  | .copy _ _ => true
  | .mkdir _ => true
  | .checksum _ => false
  | .print _ => false

/-- The world a run executes against: the source tree rooted at `root`,
and oracles for the outcomes of the external operations — whether `ditto`
succeeds on a pair of paths, the MD5 digest a read of a path produces
(`none` models an `IOError` while opening or reading), and whether
`os.mkdir` succeeds on a path (it raises `OSError`, e.g. when the target
already exists). -/
structure World where
  root : FsPath
  tree : SrcTree
  dittoOk : FsPath → FsPath → Bool
  digest : FsPath → Option String
  mkdirOk : FsPath → Bool

/-- `os.listdir p`: resolve `p` under the world's root and list the entries
of the directory found there; `none` models the `OSError` raised when the
path does not denote an existing directory. -/
def listing (w : World) (p : FsPath) : Option (List (String × EntryKind)) :=
  match stripRoot w.root p with
  | none => none
  | some suf =>
    match subtreeAt suf w.tree with
    | none => none
    | some t => some (entriesOf t)

/-- `query_yes_no`: consume operator responses until one lowercases and
truncates to `y` or `n`; return that one-character string and the remaining
responses.  An empty response list models `EOFError` from `raw_input`, an
empty response string the `IndexError` from `[0]`. -/
def query_yes_no : List String → Except Err (String × List String)
  | [] => .error .eofError
  | r :: rest =>
    match r.toList.map Char.toLower with
    | [] => .error .indexError
    | c :: _ =>
      if c = 'y' ∨ c = 'n' then .ok (String.mk [c], rest)
      else query_yes_no rest

/-- Python's `response == False` where `response` is a `str`: comparison of
values of different types is always unequal in Python, so this is `false`
whatever the response was.  This is the exact test `do_copy` performs at
both confirmation gates. -/
def pyStrEqFalse (_response : String) : Bool := false

/-- The `"Copying: %s to %s. "` progress line of `copy_file`. -/
def copyingLine (s t : FsPath) : String :=
  "Copying: " ++ pathStr s ++ " to " ++ pathStr t ++ ". "

/-- The `"OK. Checksum: %s"` success line of `copy_file`. -/
def okLine (d : String) : String := "OK. Checksum: " ++ d

/-- The line `copy_file` prints when the external copy fails. -/
def failCopyLine : String := "FAILED - OS copy failed"

/-- The line `copy_file` prints on a checksum mismatch; it carries both the
source digest and the target digest. -/
def mismatchLine (src tgt : String) : String :=
  "FAILED - Checksum mismatch: Source: " ++ src ++ ", Target: " ++ tgt

/-- `copy_file source target`: run `ditto`; if it raises
`CalledProcessError` (non-zero status), print the failure line and return
`False` without computing any checksum.  Otherwise compute both MD5
checksums (an `IOError` there is NOT caught and propagates), compare them,
and return `True` on a match, `False` with a diagnostic line carrying both
digests otherwise.  The returned list is the event trace in order. -/
def copy_file (w : World) (source target : FsPath) : Except Err (Bool × List Event) :=
  if w.dittoOk source target then
    match w.digest source with
    | none => .error .ioError
    | some src_md5 =>
      match w.digest target with
      | none => .error .ioError
      | some tgt_md5 =>
        if src_md5 = tgt_md5 then
          .ok (true, [.print (copyingLine source target), .copy source target,
                      .checksum source, .checksum target, .print (okLine src_md5)])
        else
          .ok (false, [.print (copyingLine source target), .copy source target,
                       .checksum source, .checksum target,
                       .print (mismatchLine src_md5 tgt_md5)])
  else
    .ok (false, [.print (copyingLine source target), .copy source target, .print failCopyLine])

/-- The loop of `copy_dir`: for each listed entry that passes
`os.path.isfile`, call `copy_file` on the joined paths, counting attempted
files and failures.  Errors raised by `copy_file` propagate. -/
def copyFiles (w : World) (source target : FsPath) :
    List (String × EntryKind) → Except Err ((Nat × Nat) × List Event)
  | [] => .ok ((0, 0), [])
  | (name, kind) :: rest =>
    if isfile kind then
      match copy_file w (source ++ [name]) (target ++ [name]) with
      | .error e => .error e
      | .ok (ok, evs) =>
        match copyFiles w source target rest with
        | .error e => .error e
        | .ok ((fc, ec), evs') =>
          .ok ((fc + 1, ec + (if ok then 0 else 1)), evs ++ evs')
    else
      copyFiles w source target rest

/-- `copy_dir source target`: list the source directory, copy every entry
passing `isfile`, and — when the file count is zero — create the target
directory with `os.mkdir` (NOT guarded by any try/except: a failure, e.g.
because the target already exists, propagates as `OSError`). -/
def copy_dir (w : World) (source target : FsPath) : Except Err ((Nat × Nat) × List Event) :=
  match listing w source with
  | none => .error .osError
  | some entries =>
    match copyFiles w source target entries with
    | .error e => .error e
    | .ok ((fc, ec), evs) =>
      if fc = 0 then
        if w.mkdirOk target then .ok ((fc, ec), evs ++ [.mkdir target])
        else .error .osError
      else
        .ok ((fc, ec), evs)

/-- The execution loop of `do_copy`: run `copy_dir` on each planned pair in
order, summing file and error counts.  An error raised by `copy_dir` aborts
the whole loop (nothing in `do_copy` catches it). -/
def runCopyList (w : World) : List (FsPath × FsPath) → Except Err ((Nat × Nat) × List Event)
  | [] => .ok ((0, 0), [])
  | (s, t) :: rest =>
    match copy_dir w s t with
    | .error e => .error e
    | .ok ((fc, ec), evs) =>
      match runCopyList w rest with
      | .error e => .error e
      | .ok ((fc', ec'), evs') => .ok ((fc + fc', ec + ec'), evs ++ evs')

/-- The copy-list comprehension of `do_copy`: pair every walked source
directory with the target root joined with its path relative to the source
root (`os.path.join(target_root, os.path.relpath(d, source_root))`; joining
an absolute path with a relative one appends the components). -/
def makeCopyList (source_list : List (FsPath × Nat)) (source_root target_root : FsPath) :
    List (FsPath × FsPath) :=
  source_list.map fun d => (d.1, target_root ++ relpath d.1 source_root)

/-- `do_copy source target`: walk the source tree, show the plan, ask the
operator to confirm (twice), then copy each planned directory.  Both gates
test `query_yes_no(...) == False`, which in Python compares a `str` to a
`bool` and is therefore never true — see `pyStrEqFalse`.  Informational
prints of the preview lists are elided from the trace; `rs` is the stream of
operator responses. -/
def do_copy (w : World) (rs : List String) (source target : FsPath) :
    Except Err ((Nat × Nat) × List Event) :=
  let source_list := walkDirs source w.tree
  let source_root := (source_list.headD (source, 0)).1
  match query_yes_no rs with
  | .error e => .error e
  | .ok (r1, rs1) =>
    if pyStrEqFalse r1 then
      .ok ((0, 0), [])
    else
      let copy_list := makeCopyList source_list source_root target
      match query_yes_no rs1 with
      | .error e => .error e
      | .ok (r2, _) =>
        if pyStrEqFalse r2 then
          .ok ((0, 0), [])
        else
          runCopyList w copy_list

/-- The usage line printed on a wrong argument count. -/
def usageLine : String := "Usage is: SPPmigrate <source-directory> <target-directory>"

/-- `do_main`: if the argument count is not 3, print usage and return 1
before any work (the log file is opened only after this check; the greeting
line with the wall-clock time is elided since time is not modelled).
Otherwise run `do_copy` on the two path arguments and return `None`,
printing the grand totals. -/
def do_main (w : World) (rs : List String) (argv : List FsPath) :
    Except Err (Option Nat × List Event) :=
  if argv.length ≠ 3 then .ok (some 1, [.print usageLine])
  else
    match do_copy w rs (argv.getD 1 []) (argv.getD 2 []) with
    | .error e => .error e
    | .ok ((files, errors), evs) =>
      .ok (none, evs ++ [.print ("All done. " ++ toString files ++ " files copied. "
                                 ++ toString errors ++ " errors.")])

/-- The process exit status: the `__main__` guard calls `do_main()` and
DISCARDS its return value, so the interpreter exits 0 whenever `do_main`
returns (whatever it returns), and exits 1 only when an uncaught exception
escapes. -/
def script_exit (w : World) (rs : List String) (argv : List FsPath) : Nat :=
  match do_main w rs argv with
  | .ok _ => 0
  | .error _ => 1

/-!
The MD5 algorithm (RFC 1321), used by `checksum_md5` through `hashlib`.
Bytes and 32-bit words are `Nat`s reduced modulo `2 ^ 8` resp. `2 ^ 32`
where overflow matters.
-/

/-- The 32-bit modulus. -/
def M32 : Nat := 4294967296

/-- 32-bit modular addition. -/
def add32 (a b : Nat) : Nat := (a + b) % M32

/-- 32-bit complement. -/
def not32 (x : Nat) : Nat := 4294967295 - x % M32

/-- 32-bit left rotation by `s` places (for `0 ≤ s ≤ 32`). -/
def rotl32 (x s : Nat) : Nat := (x % M32 * 2 ^ s + x % M32 / 2 ^ (32 - s)) % M32

/-- The MD5 round function F. -/
def mdF (x y z : Nat) : Nat := (x &&& y) ||| (not32 x &&& z)

/-- The MD5 round function G. -/
def mdG (x y z : Nat) : Nat := (x &&& z) ||| (y &&& not32 z)

/-- The MD5 round function H. -/
def mdH (x y z : Nat) : Nat := x ^^^ y ^^^ z

/-- The MD5 round function I. -/
def mdI (x y z : Nat) : Nat := y ^^^ (x ||| not32 z)

/-- The 64 sine-derived MD5 constants. -/
def md5K : List Nat :=
  [0xd76aa478, 0xe8c7b756, 0x242070db, 0xc1bdceee,
   0xf57c0faf, 0x4787c62a, 0xa8304613, 0xfd469501,
   0x698098d8, 0x8b44f7af, 0xffff5bb1, 0x895cd7be,
   0x6b901122, 0xfd987193, 0xa679438e, 0x49b40821,
   0xf61e2562, 0xc040b340, 0x265e5a51, 0xe9b6c7aa,
   0xd62f105d, 0x02441453, 0xd8a1e681, 0xe7d3fbc8,
   0x21e1cde6, 0xc33707d6, 0xf4d50d87, 0x455a14ed,
   0xa9e3e905, 0xfcefa3f8, 0x676f02d9, 0x8d2a4c8a,
   0xfffa3942, 0x8771f681, 0x6d9d6122, 0xfde5380c,
   0xa4beea44, 0x4bdecfa9, 0xf6bb4b60, 0xbebfbc70,
   0x289b7ec6, 0xeaa127fa, 0xd4ef3085, 0x04881d05,
   0xd9d4d039, 0xe6db99e5, 0x1fa27cf8, 0xc4ac5665,
   0xf4292244, 0x432aff97, 0xab9423a7, 0xfc93a039,
   0x655b59c3, 0x8f0ccc92, 0xffeff47d, 0x85845dd1,
   0x6fa87e4f, 0xfe2ce6e0, 0xa3014314, 0x4e0811a1,
   0xf7537e82, 0xbd3af235, 0x2ad7d2bb, 0xeb86d391]

/-- The 64 per-round MD5 shift amounts. -/
def md5S : List Nat :=
  [7, 12, 17, 22, 7, 12, 17, 22, 7, 12, 17, 22, 7, 12, 17, 22,
   5, 9, 14, 20, 5, 9, 14, 20, 5, 9, 14, 20, 5, 9, 14, 20,
   4, 11, 16, 23, 4, 11, 16, 23, 4, 11, 16, 23, 4, 11, 16, 23,
   6, 10, 15, 21, 6, 10, 15, 21, 6, 10, 15, 21, 6, 10, 15, 21]

/-- One MD5 round `i` (0 ≤ i < 64) on state `(a, b, c, d)` with the
16-word message `block`. -/
def md5Step (block : List Nat) (st : Nat × Nat × Nat × Nat) (i : Nat) :
    Nat × Nat × Nat × Nat :=
  let (a, b, c, d) := st
  let fg : Nat × Nat :=
    if i < 16 then (mdF b c d, i)
    else if i < 32 then (mdG b c d, (5 * i + 1) % 16)
    else if i < 48 then (mdH b c d, (3 * i + 5) % 16)
    else (mdI b c d, (7 * i) % 16)
  let tmp := add32 (add32 (add32 a fg.1) (md5K.getD i 0)) (block.getD fg.2 0)
  (d, add32 b (rotl32 tmp (md5S.getD i 0)), b, c)

/-- Process one 16-word block: 64 rounds, then add the incoming state. -/
def md5Block (st : Nat × Nat × Nat × Nat) (block : List Nat) :
    Nat × Nat × Nat × Nat :=
  let r := (List.range 64).foldl (md5Step block) st
  (add32 st.1 r.1, add32 st.2.1 r.2.1, add32 st.2.2.1 r.2.2.1, add32 st.2.2.2 r.2.2.2)

/-- The MD5 initial state. -/
def md5Init : Nat × Nat × Nat × Nat := (0x67452301, 0xefcdab89, 0x98badcfe, 0x10325476)

/-- The 8 bytes of `n` in little-endian order (the 64-bit length field). -/
def le8 (n : Nat) : List Nat :=
  [n % 256, n / 256 % 256, n / 256 ^ 2 % 256, n / 256 ^ 3 % 256,
   n / 256 ^ 4 % 256, n / 256 ^ 5 % 256, n / 256 ^ 6 % 256, n / 256 ^ 7 % 256]

/-- MD5 padding: a `0x80` byte, zeros up to 56 mod 64, then the bit length
modulo `2 ^ 64` in little-endian. -/
def padMsg (msg : List Nat) : List Nat :=
  msg ++ 128 :: List.replicate ((119 - msg.length % 64) % 64) 0
      ++ le8 (msg.length * 8 % 2 ^ 64)

/-- Group bytes into little-endian 32-bit words, four bytes at a time. -/
def toWordsLE : List Nat → List Nat
  | b0 :: b1 :: b2 :: b3 :: rest =>
    (b0 + 256 * b1 + 65536 * b2 + 16777216 * b3) :: toWordsLE rest
  | _ => []

/-- Group a word list into 16-word blocks. -/
def toBlocks16 : List Nat → List (List Nat)
  | w0 :: w1 :: w2 :: w3 :: w4 :: w5 :: w6 :: w7 ::
    w8 :: w9 :: w10 :: w11 :: w12 :: w13 :: w14 :: w15 :: rest =>
    [w0, w1, w2, w3, w4, w5, w6, w7, w8, w9, w10, w11, w12, w13, w14, w15]
      :: toBlocks16 rest
  | _ => []

/-- The 4 bytes of a 32-bit word in little-endian order. -/
def wordLE (w : Nat) : List Nat :=
  [w % 256, w / 256 % 256, w / 65536 % 256, w / 16777216 % 256]

/-- The 16-byte MD5 digest of a byte sequence. -/
def md5bytes (msg : List Nat) : List Nat :=
  let st := (toBlocks16 (toWordsLE (padMsg msg))).foldl md5Block md5Init
  wordLE st.1 ++ wordLE st.2.1 ++ wordLE st.2.2.1 ++ wordLE st.2.2.2

/-- The lowercase hexadecimal digit for `n < 16`. -/
def hexDigit (n : Nat) : Char :=
  if n < 10 then Char.ofNat (48 + n) else Char.ofNat (87 + n)

/-- `binascii.hexlify`: two lowercase hex digits per byte. -/
def hexlify (bytes : List Nat) : String :=
  String.mk (bytes.flatMap fun b => [hexDigit (b / 16), hexDigit (b % 16)])

/-- Split a list into consecutive chunks of `n` elements (the last chunk may
be shorter); models the `iter(lambda: f.read(n), b'')` read loop, which
yields successive reads until the empty one. -/
def chunksOf (n : Nat) : List α → List (List α)
  | [] => []
  | x :: xs =>
    if _h : n = 0 then []
    else (x :: xs).take n :: chunksOf n ((x :: xs).drop n)
termination_by l => l.length
decreasing_by simp only [List.length_drop, List.length_cons]; omega

/-- `checksum_md5`: read the file's bytes in chunks of
`md5.block_size * 128 = 64 * 128 = 8192` bytes until end-of-stream, feed
each chunk to the running `hashlib` MD5 object, and return the digest as a
hex string.  `hashlib` is the external collaborator here; it is modelled by
its contract: the digest is the MD5 of the concatenation of all bytes fed to
`update`, so the running state is the accumulated byte sequence. -/
def checksum_md5 (content : List Nat) : String :=
  hexlify (md5bytes ((chunksOf 8192 content).foldl (fun acc chunk => acc ++ chunk) []))

/-- The copy events of a trace, with their (source, target) paths. -/
def copyEvents (evs : List Event) : List (FsPath × FsPath) :=
  evs.filterMap fun ev =>
    match ev with
    | .copy a b => some (a, b)
    | _ => none

/-!
Concrete worlds used to evaluate the code at specific inputs.
-/

/-- A world whose source root holds the single regular file `a.txt`; every
external operation succeeds and every read digests to `"abc"`. -/
def wOneFile : World where
  root := ["src"]
  tree := .node [("a.txt", .regular)] .nil
  dittoOk := fun _ _ => true
  digest := fun _ => some "abc"
  mkdirOk := fun _ => true

/-- The event trace of copying `a.txt` in `wOneFile`. -/
def declineTrace : List Event :=
  [.print (copyingLine ["src", "a.txt"] ["tgt", "a.txt"]),
   .copy ["src", "a.txt"] ["tgt", "a.txt"],
   .checksum ["src", "a.txt"], .checksum ["tgt", "a.txt"],
   .print (okLine "abc")]

/-- A world whose source root is an empty directory with one subdirectory
`sub` holding the regular file `f`; `os.mkdir` fails on every path (as it
does when the target directory already exists). -/
def wMkdirFail : World where
  root := ["src"]
  tree := .node [] (.cons "sub" (.node [("f", .regular)] .nil) .nil)
  dittoOk := fun _ _ => true
  digest := fun _ => some "d"
  mkdirOk := fun _ => false

/-- A world whose source root holds one regular file but where every
checksum read raises `IOError` (`digest` is `none` everywhere). -/
def wIoErr : World where
  root := ["src"]
  tree := .node [("a", .regular)] .nil
  dittoOk := fun _ _ => true
  digest := fun _ => none
  mkdirOk := fun _ => true

/-- A world whose source root holds a single symbolic link `link` that
resolves to a regular file. -/
def wSymlink : World where
  root := ["s"]
  tree := .node [("link", .symlinkToRegular)] .nil
  dittoOk := fun _ _ => true
  digest := fun _ => some "d"
  mkdirOk := fun _ => true

/-- A world with an empty source tree and all-succeeding oracles. -/
def wTrivial : World where
  root := []
  tree := .node [] .nil
  dittoOk := fun _ _ => true
  digest := fun _ => some ""
  mkdirOk := fun _ => true

/-- A world whose reads digest `/a` to `"x"` and every other path to
`"y"`, so that a copy from `/a` to `/b` sees a checksum mismatch. -/
def wMismatch : World where
  root := []
  tree := .node [] .nil
  dittoOk := fun _ _ => true
  digest := fun p => if p = ["a"] then some "x" else some "y"
  mkdirOk := fun _ => true

/-- A world whose external copy primitive always reports failure. -/
def wDittoFail : World where
  root := []
  tree := .node [] .nil
  dittoOk := fun _ _ => false
  digest := fun _ => some ""
  mkdirOk := fun _ => true

/-!
Helper lemmas.
-/

theorem commonLen_self (p : List String) : commonLen p p = p.length := by
  induction p with
  | nil => rfl
  | cons x xs ih => simp [commonLen, ih]

theorem commonLen_append (p suf : List String) : commonLen (p ++ suf) p = p.length := by
  induction p with
  | nil => cases suf <;> rfl
  | cons x xs ih => simp [commonLen, ih]

theorem relpath_append (p suf : List String) : relpath (p ++ suf) p = suf := by
  simp [relpath, commonLen_append, List.drop_left]

mutual
theorem walkDirs_length : ∀ (p : FsPath) (t : SrcTree),
    (walkDirs p t).length = dirCount t
  | p, .node fs ds => by
    simp [walkDirs, dirCount, walkDirsList_length p ds]
    omega
theorem walkDirsList_length : ∀ (p : FsPath) (ds : DirList),
    (walkDirsList p ds).length = dirCountList ds
  | _, .nil => rfl
  | p, .cons n t rest => by
    simp [walkDirsList, dirCountList, walkDirs_length (p ++ [n]) t,
          walkDirsList_length p rest]
end

mutual
theorem walkDirs_extends : ∀ (p : FsPath) (t : SrcTree) (pr : FsPath × Nat),
    pr ∈ walkDirs p t → ∃ suf, pr.1 = p ++ suf
  | p, .node fs ds, pr => by
    intro hm
    simp only [walkDirs, List.mem_cons] at hm
    rcases hm with h | h
    · exact ⟨[], by simp [h]⟩
    · exact walkDirsList_extends p ds pr h
theorem walkDirsList_extends : ∀ (p : FsPath) (ds : DirList) (pr : FsPath × Nat),
    pr ∈ walkDirsList p ds → ∃ suf, pr.1 = p ++ suf
  | _, .nil, _ => by
    intro hm
    simp [walkDirsList] at hm
  | p, .cons n t rest, pr => by
    intro hm
    simp only [walkDirsList, List.mem_append] at hm
    rcases hm with h | h
    · obtain ⟨suf, hsuf⟩ := walkDirs_extends (p ++ [n]) t pr h
      exact ⟨n :: suf, by simp [hsuf]⟩
    · exact walkDirsList_extends p rest pr h
end

theorem walkDirs_head (p : FsPath) (t : SrcTree) :
    ∃ n, walkDirs p t = (p, n) :: (walkDirs p t).tail := by
  cases t with
  | node fs ds => exact ⟨fs.length, rfl⟩

/-- C2: for every source tree the planner emits exactly one pair per
discovered directory — the source root first — and every pair's target is
the target root followed by the source directory's path relative to the
source root.  The plan is stated exactly as `do_copy` computes it,
including the recovery of the source root from the head of the walk. -/
theorem c2_tree_planner (t : SrcTree) (source target : FsPath) :
    (makeCopyList (walkDirs source t) (((walkDirs source t).headD (source, 0)).1)
        target).length = dirCount t ∧
    (makeCopyList (walkDirs source t) (((walkDirs source t).headD (source, 0)).1)
        target).map Prod.fst = (walkDirs source t).map Prod.fst ∧
    (makeCopyList (walkDirs source t) (((walkDirs source t).headD (source, 0)).1)
        target).head? = some (source, target) ∧
    (makeCopyList (walkDirs source t) (((walkDirs source t).headD (source, 0)).1)
        target).all
      (fun pr => pr.1.take source.length == source &&
                 pr.2 == target ++ pr.1.drop source.length) = true := by
  obtain ⟨n, hw⟩ := walkDirs_head source t
  have hroot : ((walkDirs source t).headD (source, 0)).1 = source := by
    rw [hw]; rfl
  rw [hroot]
  refine ⟨?_, ?_, ?_, ?_⟩
  · rw [← walkDirs_length source t]; simp [makeCopyList]
  · simp [makeCopyList]
  · have hrel : relpath source source = ([] : List String) := by
      simp [relpath, commonLen_self]
    rw [hw]
    simp [makeCopyList, hrel]
  · rw [List.all_eq_true]
    intro pr hpr
    simp only [makeCopyList, List.mem_map] at hpr
    obtain ⟨d, hd, hpr⟩ := hpr
    obtain ⟨suf, hsuf⟩ := walkDirs_extends source t d hd
    subst hpr
    simp only [hsuf, relpath_append, Bool.and_eq_true, beq_iff_eq]
    exact ⟨List.take_left source suf, by rw [List.drop_left]⟩

/-- C1: the claim that declining at a confirmation gate yields totals
`(0, 0)` and no filesystem writes is violated by the code.  `query_yes_no`
returns the string `"y"` or `"n"`, and both gates test it with `== False`;
in Python a `str` never equals a `bool`, so the abort branch is dead code.
With the operator answering `n` at both gates on a one-file source tree,
`do_copy` still copies the file, returns totals `(1, 0)`, and its trace
holds exactly one filesystem write — the file copy. -/
theorem c1_decline_ignored :
    do_copy wOneFile ["n", "n"] ["src"] ["tgt"] = .ok ((1, 0), declineTrace) ∧
    ((1, 0) : Nat × Nat) ≠ (0, 0) ∧
    declineTrace.countP (fun ev => isWrite ev) = 1 := by
  refine ⟨rfl, by decide, by decide⟩

/-- C3: when the external copy primitive succeeds and both checksum reads
complete, `copy_file` returns `True` (Success) exactly when the source and
target digests agree; on a mismatch it returns `False` and prints the
diagnostic line carrying both digests. -/
theorem c3_checksum_verdict (w : World) (s t : FsPath) (ds dt : String)
    (h1 : w.dittoOk s t = true) (h2 : w.digest s = some ds)
    (h3 : w.digest t = some dt) :
    ((∃ evs, copy_file w s t = .ok (true, evs)) ↔ ds = dt) ∧
    (ds ≠ dt → copy_file w s t =
      .ok (false, [.print (copyingLine s t), .copy s t, .checksum s, .checksum t,
                   .print (mismatchLine ds dt)])) := by
  constructor
  · constructor
    · rintro ⟨evs, hev⟩
      by_contra hne
      simp [copy_file, h1, h2, h3, hne] at hev
    · intro heq
      subst heq
      refine ⟨[.print (copyingLine s t), .copy s t, .checksum s, .checksum t,
               .print (okLine ds)], ?_⟩
      simp [copy_file, h1, h2, h3]
  · intro hne
    simp [copy_file, h1, h2, h3, hne]

/-- Witness for C3 at a concrete world: in `wMismatch` the digests of `/a`
and `/b` are `"x"` and `"y"`, the copy primitive succeeds, and the theorem
applies. -/
theorem c3_checksum_verdict_witness :
    ((∃ evs, copy_file wMismatch ["a"] ["b"] = .ok (true, evs)) ↔ "x" = "y") ∧
    ("x" ≠ "y" → copy_file wMismatch ["a"] ["b"] =
      .ok (false, [.print (copyingLine ["a"] ["b"]), .copy ["a"] ["b"],
                   .checksum ["a"], .checksum ["b"],
                   .print (mismatchLine "x" "y")])) :=
  c3_checksum_verdict wMismatch ["a"] ["b"] "x" "y" rfl (by simp [wMismatch])
    (by simp [wMismatch])

/-- C4: when the external copy primitive reports non-zero status,
`copy_file` returns `False` at once with the failure line, and its trace
contains no checksum read of any path. -/
theorem c4_no_checksum_on_copy_failure (w : World) (s t : FsPath)
    (h : w.dittoOk s t = false) :
    copy_file w s t =
      .ok (false, [.print (copyingLine s t), .copy s t, .print failCopyLine]) ∧
    ∀ p, Event.checksum p ∉
      [Event.print (copyingLine s t), Event.copy s t, Event.print failCopyLine] := by
  constructor
  · simp [copy_file, h]
  · intro p
    simp

/-- Witness for C4: a world whose `ditto` always fails. -/
theorem c4_no_checksum_on_copy_failure_witness :
    copy_file wDittoFail ["a"] ["b"] =
      .ok (false, [.print (copyingLine ["a"] ["b"]), .copy ["a"] ["b"],
                   .print failCopyLine]) ∧
    ∀ p, Event.checksum p ∉
      [Event.print (copyingLine ["a"] ["b"]), Event.copy ["a"] ["b"],
       Event.print failCopyLine] :=
  c4_no_checksum_on_copy_failure wDittoFail ["a"] ["b"] rfl

theorem copy_file_copyEvents (w : World) (a b : FsPath) (ok : Bool)
    (evs : List Event) (h : copy_file w a b = .ok (ok, evs)) :
    copyEvents evs = [(a, b)] := by
  by_cases hd : w.dittoOk a b
  · cases hda : w.digest a with
    | none => simp [copy_file, hd, hda] at h
    | some da =>
      cases hdb : w.digest b with
      | none => simp [copy_file, hd, hda, hdb] at h
      | some db =>
        by_cases he : da = db
        · simp [copy_file, hd, hda, hdb, he] at h
          obtain ⟨-, rfl⟩ := h
          simp [copyEvents]
        · simp [copy_file, hd, hda, hdb, he] at h
          obtain ⟨-, rfl⟩ := h
          simp [copyEvents]
  · have hd2 : w.dittoOk a b = false := by simpa using hd
    simp [copy_file, hd2] at h
    obtain ⟨-, rfl⟩ := h
    simp [copyEvents]

theorem copyFiles_spec (w : World) (s t : FsPath) :
    ∀ (entries : List (String × EntryKind)) (r : (Nat × Nat) × List Event),
    copyFiles w s t entries = .ok r →
    r.1.1 = (entries.filter (fun e => isfile e.2)).length ∧
    copyEvents r.2 = (entries.filter (fun e => isfile e.2)).map
      (fun e => (s ++ [e.1], t ++ [e.1])) ∧
    r.1.2 ≤ r.1.1
  | [], r, h => by cases h; simp [copyEvents]
  | (name, kind) :: rest, r, h => by
    by_cases hk : isfile kind
    · simp only [copyFiles, hk, if_true] at h
      cases hcf : copy_file w (s ++ [name]) (t ++ [name]) with
      | error e => rw [hcf] at h; cases h
      | ok v =>
        obtain ⟨ok1, evs1⟩ := v
        rw [hcf] at h
        cases hcr : copyFiles w s t rest with
        | error e => rw [hcr] at h; cases h
        | ok r' =>
          obtain ⟨⟨fc, ec⟩, evs'⟩ := r'
          rw [hcr] at h
          cases h
          obtain ⟨ih1, ih2, ih3⟩ := copyFiles_spec w s t rest ((fc, ec), evs') hcr
          have hce := copy_file_copyEvents w (s ++ [name]) (t ++ [name]) ok1 evs1 hcf
          refine ⟨?_, ?_, ?_⟩
          · simp [List.filter_cons, hk, ← ih1]
          · simp only [copyEvents, List.filterMap_append] at ih2 ⊢
            simp [List.filter_cons, hk, ih2, copyEvents] at hce ⊢
            simp [hce, ih2]
          · simp only [] at ih3 ⊢
            split <;> omega
    · simp only [copyFiles, hk, if_false, Bool.false_eq_true] at h
      obtain ⟨ih1, ih2, ih3⟩ := copyFiles_spec w s t rest r h
      have hkf : isfile kind = false := by simpa using hk
      refine ⟨?_, ?_, ih3⟩
      · simp [List.filter_cons, hkf, ih1]
      · simp [List.filter_cons, hkf, ih2]

theorem copyFiles_nofiles (w : World) (s t : FsPath) :
    ∀ (entries : List (String × EntryKind)),
    (∀ e ∈ entries, isfile e.2 = false) →
    copyFiles w s t entries = .ok ((0, 0), [])
  | [], _ => rfl
  | (name, kind) :: rest, h => by
    have hk : isfile kind = false := h (name, kind) (by simp)
    simp only [copyFiles, hk, Bool.false_eq_true, if_false]
    exact copyFiles_nofiles w s t rest (fun e he => h e (by simp [he]))

/-- C5-counterexample: the claim says a failing empty-directory creation is
fatal only to that directory and the run continues.  In `wMkdirFail` the
plan has two directories (the empty root, then `sub` with one file); the
root's `os.mkdir` fails, the `OSError` propagates out of `copy_dir` and out
of `do_copy` uncaught, and the second directory is never processed: the
whole run dies instead of continuing. -/
theorem c5_counterexample :
    do_copy wMkdirFail ["y", "y"] ["src"] ["tgt"] = .error .osError ∧
    (walkDirs ["src"] wMkdirFail.tree).length = 2 :=
  ⟨rfl, rfl⟩

/-- C5-amended: for a directory in which no listed entry passes the
`isfile` test, `copy_dir` attempts to create the target directory; when
`os.mkdir` succeeds the empty directory is created, but when it fails
(e.g. because the target already exists) the `OSError` propagates and
aborts the entire remaining run — it is not contained to that directory. -/
theorem c5_mkdir_error_aborts_run (w : World) (s t : FsPath)
    (entries : List (String × EntryKind)) (hl : listing w s = some entries)
    (hnf : ∀ e ∈ entries, isfile e.2 = false) :
    (w.mkdirOk t = true → copy_dir w s t = .ok ((0, 0), [.mkdir t])) ∧
    (w.mkdirOk t = false →
      ∀ rest, runCopyList w ((s, t) :: rest) = .error .osError) := by
  have hcf := copyFiles_nofiles w s t entries hnf
  constructor
  · intro hmk
    simp [copy_dir, hl, hcf, hmk]
  · intro hmk rest
    simp [runCopyList, copy_dir, hl, hcf, hmk]

/-- Witness for the amended C5, at the concrete world `wMkdirFail`: the
failing creation of `/tgt` kills the loop before `/src/sub` is reached. -/
theorem c5_mkdir_error_aborts_run_witness :
    runCopyList wMkdirFail ((["src"], ["tgt"]) :: [(["src", "sub"], ["tgt", "sub"])]) =
      .error .osError :=
  (c5_mkdir_error_aborts_run wMkdirFail ["src"] ["tgt"]
      [("sub", EntryKind.directory)] rfl (by decide)).2 rfl
    [(["src", "sub"], ["tgt", "sub"])]

/-- C6-counterexample: the claim says file-level filesystem failures such
as an `IOError` during a checksum read are caught per file and never abort
the run.  In `wIoErr` the copy of `/src/a` succeeds but the checksum read
raises `IOError`; `copy_file` has no handler for it (its `try` only catches
`CalledProcessError`), so the exception propagates through `copy_dir` and
`do_copy` and the run terminates. -/
theorem c6_counterexample :
    do_copy wIoErr ["y", "y"] ["src"] ["tgt"] = .error .ioError := rfl

/-- C6-amended: failures of the external copy primitive and checksum
mismatches are indeed caught per file and recorded as `False` without
raising; but an `IOError` while computing a checksum is not caught — it
escapes `copy_file`, aborts the processing of the containing directory
(`copyFiles` stops at that file), and aborts the whole run (`runCopyList`
stops at that directory). -/
theorem c6_ioerror_escapes :
    (∀ (w : World) (s t : FsPath), w.dittoOk s t = false →
      copy_file w s t =
        .ok (false, [.print (copyingLine s t), .copy s t, .print failCopyLine])) ∧
    (∀ (w : World) (s t : FsPath) (ds dt : String), w.dittoOk s t = true →
      w.digest s = some ds → w.digest t = some dt → ds ≠ dt →
      copy_file w s t =
        .ok (false, [.print (copyingLine s t), .copy s t, .checksum s, .checksum t,
                     .print (mismatchLine ds dt)])) ∧
    (∀ (w : World) (s t : FsPath), w.dittoOk s t = true → w.digest s = none →
      copy_file w s t = .error .ioError) ∧
    (∀ (w : World) (s t : FsPath) (name : String) (kind : EntryKind)
        (rest : List (String × EntryKind)) (e : Err), isfile kind = true →
      copy_file w (s ++ [name]) (t ++ [name]) = .error e →
      copyFiles w s t ((name, kind) :: rest) = .error e) ∧
    (∀ (w : World) (s t : FsPath) (rest : List (FsPath × FsPath)) (e : Err),
      copy_dir w s t = .error e →
      runCopyList w ((s, t) :: rest) = .error e) := by
  refine ⟨?_, ?_, ?_, ?_, ?_⟩
  · intro w s t h
    simp [copy_file, h]
  · intro w s t ds dt h1 h2 h3 hne
    simp [copy_file, h1, h2, h3, hne]
  · intro w s t h1 h2
    simp [copy_file, h1, h2]
  · intro w s t name kind rest e hk hcf
    simp [copyFiles, hk, hcf]
  · intro w s t rest e hcd
    simp [runCopyList, hcd]

/-- Witness for the amended C6, at `wIoErr`: the checksum read of the just
copied file raises, `copy_file` propagates, and the one-directory run dies. -/
theorem c6_ioerror_escapes_witness :
    copy_file wIoErr ["src", "a"] ["tgt", "a"] = .error .ioError ∧
    runCopyList wIoErr ((["src"], ["tgt"]) :: []) = .error .ioError :=
  ⟨c6_ioerror_escapes.2.2.1 wIoErr ["src", "a"] ["tgt", "a"] rfl rfl,
   c6_ioerror_escapes.2.2.2.2 wIoErr ["src"] ["tgt"] [] Err.ioError rfl⟩

/-- C7-counterexample: the claim says symbolic links are excluded from the
non-recursive listing, so a directory holding only a symlink should
transfer nothing.  `os.path.isfile` follows symlinks, so in `wSymlink` the
link to a regular file IS transferred: it is counted (one file attempted)
and the external copy is invoked on it. -/
theorem c7_counterexample :
    copy_dir wSymlink ["s"] ["t"] =
      .ok ((1, 0), [.print (copyingLine ["s", "link"] ["t", "link"]),
                    .copy ["s", "link"] ["t", "link"],
                    .checksum ["s", "link"], .checksum ["t", "link"],
                    .print (okLine "d")]) := rfl

/-- C7-amended: for every directory processed by `copy_dir`, exactly the
listed entries passing the `os.path.isfile` test — regular files AND
symbolic links resolving to regular files — are transferred; nested
directories and special files are excluded.  The attempted-file count and
the copy invocations match that filtered listing one for one. -/
theorem c7_isfile_entries_transferred (w : World) (s t : FsPath)
    (entries : List (String × EntryKind)) (r : (Nat × Nat) × List Event)
    (hl : listing w s = some entries) (hr : copy_dir w s t = .ok r) :
    r.1.1 = (entries.filter (fun e => isfile e.2)).length ∧
    copyEvents r.2 = (entries.filter (fun e => isfile e.2)).map
      (fun e => (s ++ [e.1], t ++ [e.1])) := by
  cases hcf : copyFiles w s t entries with
  | error e => simp [copy_dir, hl, hcf] at hr
  | ok r' =>
    obtain ⟨⟨fc, ec⟩, evs⟩ := r'
    simp only [copy_dir, hl, hcf] at hr
    obtain ⟨h1, h2, -⟩ := copyFiles_spec w s t entries ((fc, ec), evs) hcf
    by_cases hz : fc = 0
    · by_cases hmk : w.mkdirOk t
      · simp only [hz, if_true, hmk] at hr
        injection hr with hr2
        subst hr2
        refine ⟨by simpa [← hz] using h1, ?_⟩
        simp only [copyEvents, List.filterMap_append] at h2 ⊢
        simpa [copyEvents] using h2
      · have hmk2 : w.mkdirOk t = false := by simpa using hmk
        simp [hz, hmk2] at hr
    · simp only [hz, if_false] at hr
      injection hr with hr2
      subst hr2
      exact ⟨h1, h2⟩

/-- Witness for the amended C7, at `wSymlink`: the lone symlink entry is
the one filtered entry, and the one copy event targets it. -/
theorem c7_isfile_entries_transferred_witness :
    ((1, 0), [Event.print (copyingLine ["s", "link"] ["t", "link"]),
              Event.copy ["s", "link"] ["t", "link"],
              Event.checksum ["s", "link"], Event.checksum ["t", "link"],
              Event.print (okLine "d")]).1.1 =
      (([("link", EntryKind.symlinkToRegular)]).filter
        (fun e => isfile e.2)).length ∧
    copyEvents ((1, 0), [Event.print (copyingLine ["s", "link"] ["t", "link"]),
              Event.copy ["s", "link"] ["t", "link"],
              Event.checksum ["s", "link"], Event.checksum ["t", "link"],
              Event.print (okLine "d")]).2 =
      (([("link", EntryKind.symlinkToRegular)]).filter
        (fun e => isfile e.2)).map (fun e => (["s"] ++ [e.1], ["t"] ++ [e.1])) :=
  c7_isfile_entries_transferred wSymlink ["s"] ["t"]
    [("link", EntryKind.symlinkToRegular)]
    ((1, 0), [Event.print (copyingLine ["s", "link"] ["t", "link"]),
              Event.copy ["s", "link"] ["t", "link"],
              Event.checksum ["s", "link"], Event.checksum ["t", "link"],
              Event.print (okLine "d")]) rfl rfl

/-- C8-counterexample: with a wrong argument count (here a single
argument), `do_main` does print usage and return 1, but the `__main__`
guard discards that return value and the process exits with status 0 —
not the non-zero status the claim requires. -/
theorem c8_counterexample :
    do_main wTrivial [] [["SPPmigrate"]] = .ok (some 1, [.print usageLine]) ∧
    script_exit wTrivial [] [["SPPmigrate"]] = 0 :=
  ⟨rfl, rfl⟩

/-- C8-amended: on a wrong argument count `do_main` prints the usage line
and returns 1 before any work (its trace holds only that print), but the
process exit status is 0 because `__main__` ignores `do_main`'s return
value; the exit status is 0 whenever `do_main` returns at all — in
particular for every completed run, regardless of the error count — and
non-zero only when an exception escapes. -/
theorem c8_exit_status :
    (∀ (w : World) (rs : List String) (argv : List FsPath), argv.length ≠ 3 →
      do_main w rs argv = .ok (some 1, [.print usageLine])) ∧
    (∀ (w : World) (rs : List String) (argv : List FsPath),
      (do_main w rs argv).isOk = true → script_exit w rs argv = 0) ∧
    (∀ (w : World) (rs : List String) (argv : List FsPath) (e : Err),
      do_main w rs argv = .error e → script_exit w rs argv = 1) := by
  refine ⟨?_, ?_, ?_⟩
  · intro w rs argv h
    simp [do_main, h]
  · intro w rs argv h
    cases hdm : do_main w rs argv with
    | ok v => simp [script_exit, hdm]
    | error e => simp [hdm, Except.isOk, Except.toBool] at h
  · intro w rs argv e h
    simp [script_exit, h]

/-- Witness for the amended C8: an empty argument list is a wrong count,
`do_main` returns 1, and the process still exits 0. -/
theorem c8_exit_status_witness :
    do_main wTrivial [] [] = .ok (some 1, [.print usageLine]) ∧
    script_exit wTrivial [] [] = 0 :=
  ⟨c8_exit_status.1 wTrivial [] [] (by decide),
   c8_exit_status.2.1 wTrivial [] [] rfl⟩

theorem copy_dir_err_le (w : World) (s t : FsPath) (r : (Nat × Nat) × List Event)
    (h : copy_dir w s t = .ok r) : r.1.2 ≤ r.1.1 := by
  cases hl : listing w s with
  | none => simp [copy_dir, hl] at h
  | some entries =>
    cases hcf : copyFiles w s t entries with
    | error e => simp [copy_dir, hl, hcf] at h
    | ok r1 =>
      obtain ⟨⟨fc, ec⟩, evs⟩ := r1
      obtain ⟨-, -, h3⟩ := copyFiles_spec w s t entries ((fc, ec), evs) hcf
      simp only [copy_dir, hl, hcf] at h
      have h4 : ec ≤ fc := by simpa using h3
      by_cases hz : fc = 0
      · by_cases hmk : w.mkdirOk t
        · simp only [hz, if_true, hmk] at h
          injection h with h2
          subst h2
          simp only []
          omega
        · have hmk2 : w.mkdirOk t = false := by simpa using hmk
          simp [hz, hmk2] at h
      · simp only [hz, if_false] at h
        injection h with h2
        subst h2
        simpa using h4

theorem runCopyList_err_le (w : World) :
    ∀ (l : List (FsPath × FsPath)) (r : (Nat × Nat) × List Event),
    runCopyList w l = .ok r → r.1.2 ≤ r.1.1
  | [], r, h => by cases h; simp
  | (s, t) :: rest, r, h => by
    cases hcd : copy_dir w s t with
    | error e => simp [runCopyList, hcd] at h
    | ok r1 =>
      obtain ⟨⟨fc, ec⟩, evs⟩ := r1
      cases hrl : runCopyList w rest with
      | error e => simp [runCopyList, hcd, hrl] at h
      | ok r2 =>
        obtain ⟨⟨fc2, ec2⟩, evs2⟩ := r2
        simp only [runCopyList, hcd, hrl] at h
        injection h with h2
        subst h2
        have a1 : ec ≤ fc := by
          simpa using copy_dir_err_le w s t ((fc, ec), evs) hcd
        have a2 : ec2 ≤ fc2 := by
          simpa using runCopyList_err_le w rest ((fc2, ec2), evs2) hrl
        simp only []
        omega

theorem do_copy_err_le (w : World) (rs : List String) (s t : FsPath)
    (r : (Nat × Nat) × List Event) (h : do_copy w rs s t = .ok r) :
    r.1.2 ≤ r.1.1 := by
  simp only [do_copy, pyStrEqFalse, Bool.false_eq_true, if_false] at h
  cases hq1 : query_yes_no rs with
  | error e => simp only [hq1] at h; cases h
  | ok v1 =>
    obtain ⟨r1, rs1⟩ := v1
    simp only [hq1] at h
    cases hq2 : query_yes_no rs1 with
    | error e => simp only [hq2] at h; cases h
    | ok v2 =>
      obtain ⟨r2, rs2⟩ := v2
      simp only [hq2] at h
      exact runCopyList_err_le w _ r h

/-- C10: every `copy_dir` result satisfies `error_count ≤ file_count`
(each error is charged to exactly one attempted file; both counts are
naturals, so `0 ≤ error_count` is automatic), and the Migration Totals of
`do_copy` — the sums of the per-directory counts over the plan — satisfy
the same bound.  Stated for the file loop, one directory, the plan loop,
and the whole migration. -/
theorem c10_errors_le_files :
    (∀ (w : World) (s t : FsPath) (entries : List (String × EntryKind))
        (r : (Nat × Nat) × List Event),
      copyFiles w s t entries = .ok r → r.1.2 ≤ r.1.1) ∧
    (∀ (w : World) (s t : FsPath) (r : (Nat × Nat) × List Event),
      copy_dir w s t = .ok r → r.1.2 ≤ r.1.1) ∧
    (∀ (w : World) (l : List (FsPath × FsPath)) (r : (Nat × Nat) × List Event),
      runCopyList w l = .ok r → r.1.2 ≤ r.1.1) ∧
    (∀ (w : World) (rs : List String) (s t : FsPath)
        (r : (Nat × Nat) × List Event),
      do_copy w rs s t = .ok r → r.1.2 ≤ r.1.1) :=
  ⟨fun w s t entries r h => (copyFiles_spec w s t entries r h).2.2,
   fun w s t r h => copy_dir_err_le w s t r h,
   fun w l r h => runCopyList_err_le w l r h,
   fun w rs s t r h => do_copy_err_le w rs s t r h⟩

/-- Witness for C10 at `wOneFile`: a completed run with totals `(1, 0)`
satisfies the bound. -/
theorem c10_errors_le_files_witness :
    do_copy wOneFile ["y", "y"] ["src"] ["tgt"] = .ok ((1, 0), declineTrace) ∧
    ((((1, 0) : Nat × Nat)), declineTrace).1.2 ≤
      ((((1, 0) : Nat × Nat)), declineTrace).1.1 :=
  ⟨rfl, c10_errors_le_files.2.2.2 wOneFile ["y", "y"] ["src"] ["tgt"]
    ((1, 0), declineTrace) rfl⟩

set_option maxRecDepth 40000 in
theorem md5_vector_empty :
    hexlify (md5bytes []) = "d41d8cd98f00b204e9800998ecf8427e" := by decide

set_option maxRecDepth 40000 in
theorem md5_vector_abc :
    hexlify (md5bytes [97, 98, 99]) = "900150983cd24fb0d6963f7d28e17f72" := by decide

theorem chunksOf_foldl_append (n : Nat) (hn : n ≠ 0) (l : List Nat) :
    ∀ acc : List Nat,
    (chunksOf n l).foldl (fun a c => a ++ c) acc = acc ++ l := by
  induction l using chunksOf.induct n with
  | case1 => simp [chunksOf]
  | case2 x xs h0 => exact absurd h0 hn
  | case3 x xs h0 ih =>
    intro acc
    rw [chunksOf]
    simp only [h0, dif_neg, not_false_iff, List.foldl_cons]
    rw [ih (acc ++ (x :: xs).take n)]
    simp [List.append_assoc]

theorem chunksOf_length_le (n : Nat) (l : List Nat) :
    ∀ chunk ∈ chunksOf n l, chunk.length ≤ n := by
  induction l using chunksOf.induct n with
  | case1 => simp [chunksOf]
  | case2 x xs h0 => simp [chunksOf, h0]
  | case3 x xs h0 ih =>
    intro chunk hc
    rw [chunksOf] at hc
    simp only [h0, dif_neg, not_false_iff, List.mem_cons] at hc
    rcases hc with rfl | hc
    · simp [List.length_take]
    · exact ih chunk hc

theorem wordLE_lt (w : Nat) : ∀ b ∈ wordLE w, b < 256 := by
  simp [wordLE]
  omega

theorem md5bytes_lt (msg : List Nat) : ∀ b ∈ md5bytes msg, b < 256 := by
  intro b hb
  simp only [md5bytes, List.mem_append] at hb
  rcases hb with ((hb | hb) | hb) | hb <;> exact wordLE_lt _ b hb

theorem md5bytes_length (msg : List Nat) : (md5bytes msg).length = 16 := by
  simp [md5bytes, wordLE]

theorem hexDigit_mem : ∀ n, n < 16 → hexDigit n ∈ "0123456789abcdef".toList := by
  decide

theorem hexlify_length (bytes : List Nat) :
    (hexlify bytes).length = 2 * bytes.length := by
  induction bytes with
  | nil => rfl
  | cons b rest ih =>
    simp only [hexlify, String.length, String.mk] at ih ⊢
    simp only [List.flatMap_cons, List.length_append]
    simp at ih ⊢
    omega

theorem hexlify_chars (bytes : List Nat) (hb : ∀ b ∈ bytes, b < 256) :
    ∀ c ∈ (hexlify bytes).toList, c ∈ "0123456789abcdef".toList := by
  intro c hc
  have hc2 : c ∈ bytes.flatMap fun b => [hexDigit (b / 16), hexDigit (b % 16)] := hc
  rw [List.mem_flatMap] at hc2
  obtain ⟨b, hbm, hcm⟩ := hc2
  have hblt := hb b hbm
  simp only [List.mem_cons, List.mem_singleton] at hcm
  rcases hcm with rfl | rfl | h
  · exact hexDigit_mem (b / 16) (by omega)
  · exact hexDigit_mem (b % 16) (by omega)
  · simp at h

/-- C9: the checksum engine reads the content in chunks of
`md5.block_size * 128 = 8192` bytes until end-of-stream (each chunk is no
longer than 8192 bytes), folds them into the running MD5 — so the chunked
computation equals the MD5 of the whole content and the result depends only
on the byte content — and the digest is 128 bits (16 bytes), rendered as a
32-character lowercase hexadecimal string. -/
theorem c9_checksum_engine (content : List Nat) (_h : ∀ b ∈ content, b < 256) :
    checksum_md5 content = hexlify (md5bytes content) ∧
    (∀ chunk ∈ chunksOf 8192 content, chunk.length ≤ 8192) ∧
    (md5bytes content).length = 16 ∧
    (checksum_md5 content).length = 32 ∧
    ∀ c ∈ (checksum_md5 content).toList, c ∈ "0123456789abcdef".toList := by
  have hfold : (chunksOf 8192 content).foldl (fun a c => a ++ c) [] = content := by
    simpa using chunksOf_foldl_append 8192 (by omega) content []
  have heq : checksum_md5 content = hexlify (md5bytes content) := by
    rw [checksum_md5, hfold]
  refine ⟨heq, chunksOf_length_le 8192 content, md5bytes_length content, ?_, ?_⟩
  · rw [heq, hexlify_length, md5bytes_length]
  · rw [heq]
    exact hexlify_chars (md5bytes content) (md5bytes_lt content)

/-- Witness for C9 at the byte content of `"abc"`. -/
theorem c9_checksum_engine_witness :
    (∀ b ∈ [97, 98, 99], b < 256) ∧
    (checksum_md5 [97, 98, 99] = hexlify (md5bytes [97, 98, 99]) ∧
     (∀ chunk ∈ chunksOf 8192 [97, 98, 99], chunk.length ≤ 8192) ∧
     (md5bytes [97, 98, 99]).length = 16 ∧
     (checksum_md5 [97, 98, 99]).length = 32 ∧
     ∀ c ∈ (checksum_md5 [97, 98, 99]).toList, c ∈ "0123456789abcdef".toList) :=
  ⟨by decide, c9_checksum_engine [97, 98, 99] (by decide)⟩
